import Mathlib

/-
Verification development for pyTimeTracker (pyTimeTracker.py): a shallow
embedding of the project time-logging and aggregation engine, together with
theorems about it.

Modelling conventions:
- Timestamps are whole seconds (Int).  The source stores wall-clock strings
  with second precision ("%Y-%m-%d %H:%M:%S") and parses them back with the
  same format, so the string round trip is the identity and an integer count
  of seconds is a faithful model of a timestamp.  The fractional microseconds
  of datetime.now() are discarded by the source both in the stored end_time
  (strftime has second granularity) and in the stored duration
  (str(duration).split, int(duration.total_seconds())), so whole seconds
  also model durations faithfully.
- SQLite tables are association lists from table name to row list, rows kept
  in insertion (rowid) order; INTEGER PRIMARY KEY assignment is max id + 1.
- Each GUI operation is a function from application state to application
  state plus an optional error; a QMessageBox warning/critical branch of the
  source that leaves the store untouched is an error result here.
-/

/-- One decimal digit character; 48 is the code of the zero digit. -/
def digitChar (d : Nat) : Char := Char.ofNat (48 + d)

/-- Decimal rendering of a natural number (digit characters, most significant
first), as Python str renders a nonnegative int.  Fuel-structured so that it
reduces definitionally. -/
def natReprAux : Nat → Nat → List Char → List Char
  | 0, _, acc => acc
  | fuel + 1, n, acc =>
    if n < 10 then digitChar n :: acc
    else natReprAux fuel (n / 10) (digitChar (n % 10) :: acc)

/-- Decimal rendering of a natural number. -/
def natRepr (n : Nat) : List Char := natReprAux (n + 1) n []

/-- Decimal rendering of an integer, as Python str renders an int. -/
def intRepr (n : Int) : List Char :=
  if n < 0 then '-' :: natRepr n.natAbs else natRepr n.toNat

/-- Python %02d on a natural number: pad a single digit with a zero. -/
def pad2 (n : Nat) : List Char := if n < 10 then '0' :: natRepr n else natRepr n

/-- Python %02d on an integer (negative numbers of two or more characters are
not padded, matching Python format width semantics). -/
def pad2Int (n : Int) : List Char :=
  if 0 ≤ n ∧ n < 10 then '0' :: intRepr n else intRepr n

/-- Python str.strip() at the character-list level: drop whitespace from both
ends (Python int() applies this before reading digits). -/
def trimChars (l : List Char) : List Char :=
  ((l.dropWhile Char.isWhitespace).reverse.dropWhile Char.isWhitespace).reverse

/-- Value of a nonempty all-digit character list; none otherwise. -/
def digitsVal? (l : List Char) : Option Nat :=
  if l = [] then none
  else if l.all Char.isDigit then
    some (l.foldl (fun a c => 10 * a + (c.toNat - 48)) 0)
  else none

/-- Python int(text) on a character list: strip whitespace, optional sign,
then a nonempty run of digits; none when int() would raise ValueError. -/
def pyIntChars? (l : List Char) : Option Int :=
  match trimChars l with
  | '-' :: rest => (digitsVal? rest).map (fun n => -(n : Int))
  | '+' :: rest => (digitsVal? rest).map (fun n => (n : Int))
  | other => (digitsVal? other).map (fun n => (n : Int))

/-- Python text.split(sep) for the one-character separator of the duration
format, at the character-list level. -/
def splitCols : List Char → List (List Char)
  | [] => [[]]
  | c :: rest =>
    if c = ':' then [] :: splitCols rest
    else
      match splitCols rest with
      | h :: t => (c :: h) :: t
      | [] => [[c]]

/-- The duration-string reader used by both stop_project and
update_total_time: h, m, s = map(int, text.split(sep)) then
h * 3600 + m * 60 + s; none when that raises (wrong arity or non-numeric
field), which both call sites catch and treat as skip-and-continue. -/
def parseDurationSeconds? (s : String) : Option Int :=
  match splitCols s.toList with
  | [h, m, sec] =>
    match pyIntChars? h, pyIntChars? m, pyIntChars? sec with
    | some hv, some mv, some sv => some (hv * 3600 + mv * 60 + sv)
    | _, _, _ => none
  | _ => none

/-- The hours-minutes-seconds core of Python str(timedelta): hours are not
padded, minutes and seconds are. -/
def hmsChars (rem : Nat) : List Char :=
  natRepr (rem / 3600) ++ ':' :: (pad2 (rem % 3600 / 60) ++ ':' :: pad2 (rem % 60))

/-- Python str(timedelta) for a whole-second timedelta, after the source's
split at the decimal point: the timedelta is normalised to days (floor) plus
a remainder in [0, 86400); a nonzero day count is printed in front with the
word day or days. -/
def timedeltaStr (n : Int) : String :=
  let days : Int := n.fdiv 86400
  let rem : Nat := (n.fmod 86400).toNat
  if days = 0 then String.mk (hmsChars rem)
  else if days = 1 ∨ days = -1 then
    String.mk (intRepr days ++ (" day, ").toList ++ hmsChars rem)
  else
    String.mk (intRepr days ++ (" days, ").toList ++ hmsChars rem)

/-- The cumulative_time f-string of stop_project: %02d fields from Python
floor division and modulus (fdiv and fmod match Python // and % exactly,
including on negative inputs). -/
def cumulativeStr (n : Int) : String :=
  String.mk (pad2Int (n.fdiv 3600) ++ ':' :: pad2Int ((n.fmod 3600).fdiv 60)
    ++ ':' :: pad2Int (n.fmod 60))

/-- sanitize_table_name: replace spaces with underscores, keep only
alphanumeric characters and underscores, prefix with the fixed namespace tag
(Char.isAlphanum models str.isalnum on the ASCII titles in scope). -/
def sanitize_table_name (title : String) : String :=
  "project_" ++ String.mk (((title.toList.map
    (fun c => if c = ' ' then '_' else c)).filter
      (fun c => c.isAlphanum || c == '_')))

/-- Python text.strip() (used on the entered title and details). -/
def pyStrip (s : String) : String := String.mk (trimChars s.toList)

/-- One row of a per-project log table. -/
structure LogRow where
  id : Nat
  start_time : Int
  end_time : Option Int
  duration : Option String
  cumulative_time : Option String
deriving DecidableEq

/-- One row of the projects_master registry table. -/
structure Project where
  id : Nat
  title : String
  details : String
  table_name : String
deriving DecidableEq

/-- The SQLite store: the registry plus the dynamically created per-project
log tables (name, rows), both in insertion order. -/
structure DB where
  projects : List Project
  tables : List (String × List LogRow)
deriving DecidableEq

/-- Application state: the store plus the process-wide running-project slot
(current_project_id, current_project_table), none when no timer runs. -/
structure AppState where
  db : DB
  current : Option (Nat × String)
deriving DecidableEq

def emptyState : AppState := { db := { projects := [], tables := [] }, current := none }

/-- The error outcomes of the modelled operations (each a QMessageBox
warning/critical branch of the source that leaves the store untouched). -/
inductive TrackerError where
  | EmptyTitle
  | DuplicateTitle
  | TableNameCollision
  | AlreadyRunning
  | NotRunning
  | NoActiveLog
  | ProjectNotFound
  | StoreError
deriving DecidableEq

/-- SELECT from a named table; none models the sqlite3 error raised when the
table does not exist. -/
def lookupTable? (db : DB) (name : String) : Option (List LogRow) :=
  (db.tables.find? (fun t => t.fst = name)).map Prod.snd

/-- Overwrite the rows of the named table. -/
def setTable (db : DB) (name : String) (rows : List LogRow) : DB :=
  { db with tables := db.tables.map (fun t => if t.fst = name then (name, rows) else t) }

/-- CREATE TABLE IF NOT EXISTS. -/
def createTableIfNotExists (db : DB) (name : String) : DB :=
  match lookupTable? db name with
  | some _ => db
  | none => { db with tables := db.tables ++ [(name, [])] }

/-- SQLite INTEGER PRIMARY KEY assignment: one more than the largest rowid. -/
def nextRowId (rows : List LogRow) : Nat :=
  (rows.foldl (fun a r => max a r.id) 0) + 1

def nextProjectId (db : DB) : Nat :=
  (db.projects.foldl (fun a p => max a p.id) 0) + 1

/-- The summation loop of stop_project over previously stored duration
strings: parse each as h:m:s and add, skipping malformed entries. -/
def sumParsed (l : List String) : Int :=
  l.foldl (fun acc s =>
    match parseDurationSeconds? s with
    | some v => acc + v
    | none => acc) 0

/-- SELECT duration FROM table WHERE id < logId AND duration IS NOT NULL,
in rowid order. -/
def prevDurations (rows : List LogRow) (logId : Nat) : List String :=
  (rows.filter (fun r => decide (r.id < logId))).filterMap (fun r => r.duration)

/-- SELECT ... WHERE end_time IS NULL ORDER BY id DESC LIMIT 1: the open row
of largest id, if any. -/
def lastOpenRow (rows : List LogRow) : Option LogRow :=
  (rows.filter (fun r => r.end_time.isNone)).foldl
    (fun acc r =>
      match acc with
      | none => some r
      | some a => if a.id < r.id then some r else some a) none

/-- Closing UPDATE of stop_project: set end_time, duration and
cumulative_time on the row with the given id. -/
def closeRow (tNow : Int) (logId : Nat) (durStr cumStr : String) (r : LogRow) : LogRow :=
  if r.id = logId then
    { r with end_time := some tNow, duration := some durStr, cumulative_time := some cumStr }
  else r

/-- start_project: trim the entered title and details, reject an empty or
duplicate title, create the log table, insert the registry row (UNIQUE
table_name can still fail when two distinct titles sanitize identically),
insert the opening interval row and occupy the running slot. -/
def start_project (st : AppState) (rawTitle rawDetails : String) (tNow : Int) :
    AppState × Option TrackerError :=
  let title := pyStrip rawTitle
  let details := pyStrip rawDetails
  if title = "" then (st, some TrackerError.EmptyTitle)
  else if st.db.projects.any (fun p => p.title = title) then
    (st, some TrackerError.DuplicateTitle)
  else
    let table_name := sanitize_table_name title
    let db1 := createTableIfNotExists st.db table_name
    if st.db.projects.any (fun p => p.table_name = table_name) then
      ({ st with db := db1 }, some TrackerError.TableNameCollision)
    else
      let pid := nextProjectId db1
      let db2 := { db1 with projects := db1.projects ++
        [{ id := pid, title := title, details := details, table_name := table_name }] }
      let rows := (lookupTable? db2 table_name).getD []
      let row : LogRow :=
        { id := nextRowId rows, start_time := tNow, end_time := none,
          duration := none, cumulative_time := none }
      ({ db := setTable db2 table_name (rows ++ [row]),
         current := some (pid, table_name) }, none)

/-- start_recording: look the selected title up in the registry, refuse when
the project's own table already holds an open row, otherwise insert an open
interval row and occupy the running slot.  The source performs no check of
the running slot itself. -/
def start_recording (st : AppState) (projectTitle : String) (tNow : Int) :
    AppState × Option TrackerError :=
  match st.db.projects.find? (fun p => p.title = projectTitle) with
  | none => (st, some TrackerError.ProjectNotFound)
  | some p =>
    match lookupTable? st.db p.table_name with
    | none => (st, some TrackerError.StoreError)
    | some rows =>
      if rows.any (fun r => r.end_time.isNone) then
        (st, some TrackerError.AlreadyRunning)
      else
        let row : LogRow :=
          { id := nextRowId rows, start_time := tNow, end_time := none,
            duration := none, cumulative_time := none }
        ({ db := setTable st.db p.table_name (rows ++ [row]),
           current := some (p.id, p.table_name) }, none)

/-- stop_project: take the open row of largest id of the running project's
table, compute duration = now - start_time, cumulative = sum of the parsed
previous durations (smaller id, non-null, malformed skipped) plus this
duration, write end_time, duration and cumulative_time, release the slot. -/
def stop_project (st : AppState) (tNow : Int) : AppState × Option TrackerError :=
  match st.current with
  | none => (st, some TrackerError.NotRunning)
  | some (_, tname) =>
    match lookupTable? st.db tname with
    | none => (st, some TrackerError.StoreError)
    | some rows =>
      match lastOpenRow rows with
      | none => (st, some TrackerError.NoActiveLog)
      | some r =>
        let d : Int := tNow - r.start_time
        let durStr := timedeltaStr d
        let cumStr := cumulativeStr (sumParsed (prevDurations rows r.id) + d)
        ({ db := setTable st.db tname (rows.map (closeRow tNow r.id durStr cumStr)),
           current := none }, none)

/-- check_open_projects: scan the registry rows in table order and report the
first project whose log table holds a row with null end_time. -/
def hasOpenRow (db : DB) (p : Project) : Bool :=
  ((lookupTable? db p.table_name).getD []).any (fun r => r.end_time.isNone)

def check_open_projects (db : DB) : Option Project :=
  db.projects.find? (hasOpenRow db)

/-- Codepoint-wise lexicographic comparison of character lists: the order
SQLite's default BINARY collation gives ORDER BY title ASC (UTF-8 byte order
coincides with codepoint order). -/
def charListLt : List Char → List Char → Bool
  | [], [] => false
  | [], _ :: _ => true
  | _ :: _, [] => false
  | a :: as, b :: bs =>
    if a.toNat < b.toNat then true
    else if b.toNat < a.toNat then false
    else charListLt as bs

def titleLt (s t : String) : Bool := charListLt s.toList t.toList

/-- The ORDER BY title ASC listing used by load_projects and the filter
dropdown (insertion sort by title). -/
def insertByTitle (p : Project) : List Project → List Project
  | [] => [p]
  | q :: rest => if titleLt p.title q.title then p :: q :: rest else q :: insertByTitle p rest

def listProjectsByTitle (db : DB) : List Project :=
  db.projects.foldl (fun acc p => insertByTitle p acc) []

/-- Contribution of one stored duration cell to the total of
update_total_time: NULL, the empty string and the text of the N/A
placeholder contribute nothing, anything unparsable is skipped, anything
parsable contributes its seconds. -/
def durContrib : Option String → Int
  | none => 0
  | some s =>
    if s = "" ∨ s = "N/A" then 0
    else
      match parseDurationSeconds? s with
      | some v => v
      | none => 0

/-- The summation loop of update_total_time over a sequence of duration
cells. -/
def sumDurationsTotal (durs : List (Option String)) : Int :=
  durs.foldl (fun acc d => acc + durContrib d) 0

def get_project_title (db : DB) (pid : Nat) : String :=
  ((db.projects.find? (fun p => p.id = pid)).map Project.title).getD ""

/-- update_total_time: with a project filter, sum the duration column of the
table derived from that project's title; without, sum the duration columns
of every table registered in projects_master.  Returns the computed total
seconds (the source then renders them into the total-time label). -/
def update_total_time (db : DB) (filterId : Option Nat) : Int :=
  match filterId with
  | some pid =>
    let tname := sanitize_table_name (get_project_title db pid)
    sumDurationsTotal (((lookupTable? db tname).getD []).map (fun r => r.duration))
  | none =>
    sumDurationsTotal ((db.projects.map
      (fun p => ((lookupTable? db p.table_name).getD []).map (fun r => r.duration))).flatten)

/-- Parse-or-zero contribution of one stored duration string in the
stop_project summation. -/
def parsedOrZero (s : String) : Int := (parseDurationSeconds? s).getD 0

/-! Reachability of application states under the modelled operations, and
the single-open-interval invariant. -/

/-- Number of open rows (null end_time) of one log table. -/
def countOpen (rows : List LogRow) : Nat :=
  (rows.filter (fun r => r.end_time.isNone)).length

def tableKeys (db : DB) : List String := db.tables.map Prod.fst

/-- States reachable from a fresh store by create/start/stop under
single-writer access. -/
inductive Reachable : AppState → Prop where
  | init : Reachable emptyState
  | create : ∀ (s : AppState) (title details : String) (t : Int),
      Reachable s → Reachable (start_project s title details t).fst
  | record : ∀ (s : AppState) (title : String) (t : Int),
      Reachable s → Reachable (start_recording s title t).fst
  | halt : ∀ (s : AppState) (t : Int),
      Reachable s → Reachable (stop_project s t).fst

/-- Induction invariant: every log table has at most one open row, every
registered project's table exists, and every table is registered. -/
def StoreInv (st : AppState) : Prop :=
  (∀ t ∈ st.db.tables, countOpen t.snd ≤ 1) ∧
  (∀ p ∈ st.db.projects, p.table_name ∈ tableKeys st.db) ∧
  (∀ t ∈ st.db.tables, ∃ p ∈ st.db.projects, p.table_name = t.fst)

/-- The sum the specification describes: over the closed rows (non-null
end_time) of smaller id, each duration contributing its parsed seconds, a
malformed one contributing zero. -/
def closedPrevSum (rows : List LogRow) (logId : Nat) : Int :=
  ((rows.filter (fun q => decide (q.id < logId) && q.end_time.isSome)).map
    (fun q =>
      match q.duration with
      | none => 0
      | some s => parsedOrZero s)).sum

/-- An application state with one freshly created project Alpha whose timer
is running (started at time 0). -/
def exStA : AppState := (start_project emptyState "Alpha" "" 0).fst

/-- A state whose single project has an interval open since time 0 and whose
timer is running. -/
def exStDay : AppState :=
  { db := { projects := [{ id := 1, title := "A", details := "", table_name := "project_A" }],
            tables := [("project_A",
              [{ id := 1, start_time := 0, end_time := none, duration := none,
                 cumulative_time := none }])] },
    current := some (1, "project_A") }

/-- A state in which the running slot is occupied by project 1 while
project B (id 2) is idle with an empty log table. -/
def exStSlot : AppState :=
  { db := { projects := [{ id := 1, title := "A", details := "", table_name := "project_A" },
                         { id := 2, title := "B", details := "", table_name := "project_B" }],
            tables := [("project_A",
                         [{ id := 1, start_time := 0, end_time := none, duration := none,
                            cumulative_time := none }]),
                       ("project_B", [])] },
    current := some (1, "project_A") }

/-- Two projects, both with an open interval, whose master-table order (id
order) disagrees with title-ascending listing order. -/
def dbTwoOpen : DB :=
  { projects := [{ id := 1, title := "b", details := "", table_name := "project_b" },
                 { id := 2, title := "a", details := "", table_name := "project_a" }],
    tables := [("project_b",
                 [{ id := 1, start_time := 0, end_time := none, duration := none,
                    cumulative_time := none }]),
               ("project_a",
                 [{ id := 1, start_time := 0, end_time := none, duration := none,
                    cumulative_time := none }])] }

/-- Two projects of which exactly the second has an open interval. -/
def dbOneOpen : DB :=
  { projects := [{ id := 1, title := "a", details := "", table_name := "project_a" },
                 { id := 2, title := "b", details := "", table_name := "project_b" }],
    tables := [("project_a", []),
               ("project_b",
                 [{ id := 1, start_time := 3, end_time := none, duration := none,
                    cumulative_time := none }])] }

/-- Two projects with no open interval anywhere. -/
def dbNoOpen : DB :=
  { projects := [{ id := 1, title := "a", details := "", table_name := "project_a" }],
    tables := [("project_a",
                 [{ id := 1, start_time := 0, end_time := some 9, duration := some "0:00:09",
                    cumulative_time := some "00:00:09" }])] }

/-! The create/stop/start/stop scenarios on one project Alpha. -/

/-- The rows of project Alpha's log table. -/
def alphaRows (st : AppState) : List LogRow :=
  (lookupTable? st.db "project_Alpha").getD []

/-- Create Alpha at t0 (which starts its timer), stop 125 s later, start
again at t1, stop 60 s later. -/
def alphaCycle2 (t0 t1 : Int) : AppState :=
  (stop_project (start_recording (stop_project
    (start_project emptyState "Alpha" "" t0).fst (t0 + 125)).fst "Alpha" t1).fst
    (t1 + 60)).fst

/-- Create Alpha at t1, stop at t2, start at t3, stop at t4, start at t5,
stop at t6: three consecutive start/stop cycles. -/
def alphaCycle3 (t1 t2 t3 t4 t5 t6 : Int) : AppState :=
  (stop_project (start_recording (stop_project (start_recording (stop_project
    (start_project emptyState "Alpha" "" t1).fst t2).fst "Alpha" t3).fst t4).fst
    "Alpha" t5).fst t6).fst

def stB1 (t1 : Int) : AppState :=
  { db := { projects := [{ id := 1, title := "Alpha", details := "",
                           table_name := "project_Alpha" }],
            tables := [("project_Alpha",
              [{ id := 1, start_time := t1, end_time := none, duration := none,
                 cumulative_time := none }])] },
    current := some (1, "project_Alpha") }

def stB2 (t1 t2 : Int) : AppState :=
  { db := { projects := [{ id := 1, title := "Alpha", details := "",
                           table_name := "project_Alpha" }],
            tables := [("project_Alpha",
              [{ id := 1, start_time := t1, end_time := some t2,
                 duration := some (timedeltaStr (t2 - t1)),
                 cumulative_time := some (cumulativeStr (t2 - t1)) }])] },
    current := none }

def stB3 (t1 t2 t3 : Int) : AppState :=
  { db := { projects := [{ id := 1, title := "Alpha", details := "",
                           table_name := "project_Alpha" }],
            tables := [("project_Alpha",
              [{ id := 1, start_time := t1, end_time := some t2,
                 duration := some (timedeltaStr (t2 - t1)),
                 cumulative_time := some (cumulativeStr (t2 - t1)) },
               { id := 2, start_time := t3, end_time := none, duration := none,
                 cumulative_time := none }])] },
    current := some (1, "project_Alpha") }

def stB4 (t1 t2 t3 t4 : Int) : AppState :=
  { db := { projects := [{ id := 1, title := "Alpha", details := "",
                           table_name := "project_Alpha" }],
            tables := [("project_Alpha",
              [{ id := 1, start_time := t1, end_time := some t2,
                 duration := some (timedeltaStr (t2 - t1)),
                 cumulative_time := some (cumulativeStr (t2 - t1)) },
               { id := 2, start_time := t3, end_time := some t4,
                 duration := some (timedeltaStr (t4 - t3)),
                 cumulative_time := some (cumulativeStr ((t2 - t1) + (t4 - t3))) }])] },
    current := none }

def stB5 (t1 t2 t3 t4 t5 : Int) : AppState :=
  { db := { projects := [{ id := 1, title := "Alpha", details := "",
                           table_name := "project_Alpha" }],
            tables := [("project_Alpha",
              [{ id := 1, start_time := t1, end_time := some t2,
                 duration := some (timedeltaStr (t2 - t1)),
                 cumulative_time := some (cumulativeStr (t2 - t1)) },
               { id := 2, start_time := t3, end_time := some t4,
                 duration := some (timedeltaStr (t4 - t3)),
                 cumulative_time := some (cumulativeStr ((t2 - t1) + (t4 - t3))) },
               { id := 3, start_time := t5, end_time := none, duration := none,
                 cumulative_time := none }])] },
    current := some (1, "project_Alpha") }

def stB6 (t1 t2 t3 t4 t5 t6 : Int) : AppState :=
  { db := { projects := [{ id := 1, title := "Alpha", details := "",
                           table_name := "project_Alpha" }],
            tables := [("project_Alpha",
              [{ id := 1, start_time := t1, end_time := some t2,
                 duration := some (timedeltaStr (t2 - t1)),
                 cumulative_time := some (cumulativeStr (t2 - t1)) },
               { id := 2, start_time := t3, end_time := some t4,
                 duration := some (timedeltaStr (t4 - t3)),
                 cumulative_time := some (cumulativeStr ((t2 - t1) + (t4 - t3))) },
               { id := 3, start_time := t5, end_time := some t6,
                 duration := some (timedeltaStr (t6 - t5)),
                 cumulative_time := some (cumulativeStr ((t2 - t1) + (t4 - t3)
                   + (t6 - t5))) }])] },
    current := none }

/-- Two projects with a parsable duration, a malformed day-form duration and
an open interval spread over their tables. -/
def dbTwoTotals : DB :=
  { projects := [{ id := 1, title := "a", details := "", table_name := "project_a" },
                 { id := 2, title := "b", details := "", table_name := "project_b" }],
    tables := [("project_a",
                 [{ id := 1, start_time := 0, end_time := some 60,
                    duration := some "0:01:00", cumulative_time := some "00:01:00" }]),
               ("project_b",
                 [{ id := 1, start_time := 0, end_time := some 90000,
                    duration := some "1 day, 1:00:00",
                    cumulative_time := some "25:00:00" },
                  { id := 2, start_time := 90010, end_time := none, duration := none,
                    cumulative_time := none }])] }

/-! Codec lemmas: the duration strings written by stop_project parse back to
their value when shorter than a day, and fail to parse from a day up. -/

lemma digitChar_isDigit : ∀ d : Nat, d < 10 → (digitChar d).isDigit = true := by decide

lemma natReprAux_digits (fuel : Nat) :
    ∀ (n : Nat) (acc : List Char), (∀ c ∈ acc, c.isDigit = true) →
      ∀ c ∈ natReprAux fuel n acc, c.isDigit = true := by
  induction fuel with
  | zero => intro n acc hacc c hc; exact hacc c hc
  | succ fuel ih =>
    intro n acc hacc c hc
    rw [natReprAux] at hc
    by_cases h : n < 10
    · rw [if_pos h] at hc
      rcases List.mem_cons.mp hc with rfl | hmem
      · exact digitChar_isDigit n h
      · exact hacc c hmem
    · rw [if_neg h] at hc
      refine ih (n / 10) (digitChar (n % 10) :: acc) ?_ c hc
      intro c' hc'
      rcases List.mem_cons.mp hc' with rfl | hmem
      · exact digitChar_isDigit _ (Nat.mod_lt _ (by norm_num))
      · exact hacc c' hmem

lemma natRepr_digits (n : Nat) : ∀ c ∈ natRepr n, c.isDigit = true :=
  natReprAux_digits (n + 1) n [] (by intro c hc; cases hc)

lemma pad2_digits (n : Nat) : ∀ c ∈ pad2 n, c.isDigit = true := by
  intro c hc
  unfold pad2 at hc
  by_cases h : n < 10
  · rw [if_pos h] at hc
    rcases List.mem_cons.mp hc with rfl | hmem
    · decide
    · exact natRepr_digits n c hmem
  · rw [if_neg h] at hc
    exact natRepr_digits n c hc

lemma digit_ne_colon (c : Char) (h : c.isDigit = true) : c ≠ ':' := by
  rintro rfl
  exact absurd h (by decide)

lemma splitCols_no_colon : ∀ a : List Char, (∀ c ∈ a, c ≠ ':') → splitCols a = [a] := by
  intro a
  induction a with
  | nil => intro _; rfl
  | cons c rest ih =>
    intro h
    rw [splitCols, if_neg (h c (List.mem_cons_self c rest)), ih]
    intro c' hc'
    exact h c' (List.mem_cons_of_mem c hc')

lemma splitCols_append (a rest : List Char) (h : ∀ c ∈ a, c ≠ ':') :
    splitCols (a ++ ':' :: rest) = a :: splitCols rest := by
  induction a with
  | nil => simp [splitCols]
  | cons c a ih =>
    have hc : c ≠ ':' := h c (List.mem_cons_self c a)
    rw [List.cons_append, splitCols, if_neg hc,
      ih (fun c' hc' => h c' (List.mem_cons_of_mem c hc'))]

lemma splitCols_three (a b c : List Char)
    (ha : ∀ x ∈ a, x ≠ ':') (hb : ∀ x ∈ b, x ≠ ':') (hc : ∀ x ∈ c, x ≠ ':') :
    splitCols (a ++ ':' :: (b ++ ':' :: c)) = [a, b, c] := by
  rw [splitCols_append a _ ha, splitCols_append b _ hb, splitCols_no_colon c hc]

lemma pyInt_natRepr : ∀ n : Nat, n < 100 → pyIntChars? (natRepr n) = some (n : Int) := by
  decide

lemma pyInt_pad2 : ∀ n : Nat, n < 60 → pyIntChars? (pad2 n) = some (n : Int) := by
  decide

lemma parse_hms (rem : Nat) (h : rem < 86400) :
    parseDurationSeconds? (String.mk (hmsChars rem)) = some (rem : Int) := by
  have hh : rem / 3600 < 24 := by omega
  have hm : rem % 3600 / 60 < 60 := by omega
  have hs : rem % 60 < 60 := Nat.mod_lt _ (by norm_num)
  have htl : (String.mk (hmsChars rem)).toList = hmsChars rem := rfl
  rw [parseDurationSeconds?, htl, hmsChars,
    splitCols_three _ _ _
      (fun x hx => digit_ne_colon x (natRepr_digits _ x hx))
      (fun x hx => digit_ne_colon x (pad2_digits _ x hx))
      (fun x hx => digit_ne_colon x (pad2_digits _ x hx))]
  simp only [pyInt_natRepr _ (show rem / 3600 < 100 by omega), pyInt_pad2 _ hm,
    pyInt_pad2 _ hs]
  have : ((rem / 3600 : Nat) : Int) * 3600 + ((rem % 3600 / 60 : Nat) : Int) * 60
      + ((rem % 60 : Nat) : Int) = (rem : Int) := by
    push_cast
    omega
  rw [this]

lemma natCast_fdiv (m n : Nat) : ((m : Int)).fdiv ((n : Nat) : Int) = ((m / n : Nat) : Int) :=
  (Int.ofNat_fdiv m n).symm

lemma natCast_fmod (m n : Nat) : ((m : Int)).fmod ((n : Nat) : Int) = ((m % n : Nat) : Int) :=
  (Int.ofNat_fmod m n).symm

lemma parse_timedeltaStr (n : Int) (h0 : 0 ≤ n) (h1 : n < 86400) :
    parseDurationSeconds? (timedeltaStr n) = some n := by
  obtain ⟨m, rfl⟩ : ∃ m : Nat, n = (m : Int) := ⟨n.toNat, (Int.toNat_of_nonneg h0).symm⟩
  have hm : m < 86400 := by exact_mod_cast h1
  have hdiv : ((m : Int)).fdiv 86400 = ((m / 86400 : Nat) : Int) := by
    have := natCast_fdiv m 86400
    simpa using this
  have hmod : ((m : Int)).fmod 86400 = ((m % 86400 : Nat) : Int) := by
    have := natCast_fmod m 86400
    simpa using this
  rw [timedeltaStr]
  simp only [hdiv, hmod, Nat.div_eq_of_lt hm, Nat.mod_eq_of_lt hm, Int.toNat_natCast,
    Nat.cast_zero, if_pos rfl]
  exact parse_hms m hm

lemma mem_dropWhile_of_mem {p : Char → Bool} {c : Char} :
    ∀ {l : List Char}, c ∈ l → p c = false → c ∈ l.dropWhile p := by
  intro l
  induction l with
  | nil => intro h _; cases h
  | cons x xs ih =>
    intro hc hp
    by_cases hx : p x = true
    · rw [List.dropWhile_cons_of_pos hx]
      rcases List.mem_cons.mp hc with rfl | hmem
      · rw [hx] at hp; cases hp
      · exact ih hmem hp
    · rw [List.dropWhile_cons_of_neg hx]
      exact hc

lemma mem_trimChars {c : Char} {l : List Char} (hc : c ∈ l)
    (hw : c.isWhitespace = false) : c ∈ trimChars l := by
  unfold trimChars
  rw [List.mem_reverse]
  apply mem_dropWhile_of_mem _ hw
  rw [List.mem_reverse]
  exact mem_dropWhile_of_mem hc hw

lemma digitsVal?_none {l : List Char} {c : Char} (hc : c ∈ l) (hd : c.isDigit = false) :
    digitsVal? l = none := by
  have hne : l ≠ [] := by rintro rfl; cases hc
  rw [digitsVal?, if_neg hne, if_neg]
  intro hall
  rw [List.all_eq_true] at hall
  rw [hall c hc] at hd
  cases hd

lemma pyIntChars?_none {l : List Char} {c : Char} (hc : c ∈ l)
    (hd : c.isDigit = false) (hw : c.isWhitespace = false)
    (hm : c ≠ '-') (hp : c ≠ '+') : pyIntChars? l = none := by
  have hmem := mem_trimChars hc hw
  rw [pyIntChars?]
  split
  next rest heq =>
    rw [heq] at hmem
    rcases List.mem_cons.mp hmem with h | h
    · exact absurd h hm
    · rw [digitsVal?_none h hd]; rfl
  next rest heq =>
    rw [heq] at hmem
    rcases List.mem_cons.mp hmem with h | h
    · exact absurd h hp
    · rw [digitsVal?_none h hd]; rfl
  next =>
    rw [digitsVal?_none hmem hd]
    rfl

lemma dayWordChars_ne_colon : ∀ c ∈ (" day, ").toList, c ≠ ':' := by decide

lemma daysWordChars_ne_colon : ∀ c ∈ (" days, ").toList, c ≠ ':' := by decide

lemma parse_dayForm_none (pre : List Char) (rem : Nat)
    (hpre : ∀ x ∈ pre, x ≠ ':') (hbad : 'y' ∈ pre) :
    parseDurationSeconds? (String.mk (pre ++ hmsChars rem)) = none := by
  have htl : (String.mk (pre ++ hmsChars rem)).toList = pre ++ hmsChars rem := rfl
  rw [parseDurationSeconds?, htl, hmsChars, ← List.append_assoc,
    splitCols_append _ _ (by
      intro x hx
      rcases List.mem_append.mp hx with h | h
      · exact hpre x h
      · exact digit_ne_colon x (natRepr_digits _ x h)),
    splitCols_append _ _ (fun x hx => digit_ne_colon x (pad2_digits _ x hx)),
    splitCols_no_colon _ (fun x hx => digit_ne_colon x (pad2_digits _ x hx))]
  simp only [pyIntChars?_none (List.mem_append_left _ hbad) (by decide) (by decide)
    (by decide) (by decide)]

lemma parse_timedeltaStr_day (n : Int) (h : 86400 ≤ n) :
    parseDurationSeconds? (timedeltaStr n) = none := by
  have h0 : 0 ≤ n := le_trans (by norm_num) h
  obtain ⟨m, rfl⟩ : ∃ m : Nat, n = (m : Int) := ⟨n.toNat, (Int.toNat_of_nonneg h0).symm⟩
  have hm : 86400 ≤ m := by exact_mod_cast h
  have hdiv : ((m : Int)).fdiv 86400 = ((m / 86400 : Nat) : Int) := by
    have := natCast_fdiv m 86400
    simpa using this
  have hmod : ((m : Int)).fmod 86400 = ((m % 86400 : Nat) : Int) := by
    have := natCast_fmod m 86400
    simpa using this
  have hD : 1 ≤ m / 86400 := (Nat.one_le_div_iff (by norm_num)).mpr hm
  have hDne : ((m / 86400 : Nat) : Int) ≠ 0 := by
    simp only [ne_eq, Nat.cast_eq_zero]
    omega
  have hInt : intRepr ((m / 86400 : Nat) : Int) = natRepr (m / 86400) := by
    rw [intRepr, if_neg (by omega), Int.toNat_natCast]
  rw [timedeltaStr]
  simp only [hdiv, hmod, Int.toNat_natCast, if_neg hDne, hInt]
  by_cases h1 : ((m / 86400 : Nat) : Int) = 1 ∨ ((m / 86400 : Nat) : Int) = -1
  · rw [if_pos h1]
    exact parse_dayForm_none (natRepr (m / 86400) ++ (" day, ").toList) _
      (by
        intro x hx
        rcases List.mem_append.mp hx with hx | hx
        · exact digit_ne_colon x (natRepr_digits _ x hx)
        · exact dayWordChars_ne_colon x hx)
      (List.mem_append_right _ (by decide))
  · rw [if_neg h1]
    exact parse_dayForm_none (natRepr (m / 86400) ++ (" days, ").toList) _
      (by
        intro x hx
        rcases List.mem_append.mp hx with hx | hx
        · exact digit_ne_colon x (natRepr_digits _ x hx)
        · exact daysWordChars_ne_colon x hx)
      (List.mem_append_right _ (by decide))

lemma foldl_parse (l : List String) (a : Int) :
    l.foldl (fun acc s =>
      match parseDurationSeconds? s with
      | some v => acc + v
      | none => acc) a = a + (l.map parsedOrZero).sum := by
  induction l generalizing a with
  | nil => simp
  | cons s l ih =>
    rw [List.foldl_cons, ih]
    cases hp : parseDurationSeconds? s
    · simp [parsedOrZero, hp]
    · simp only [parsedOrZero, hp, Option.getD_some, List.map_cons, List.sum_cons]
      ring

lemma sumParsed_eq (l : List String) : sumParsed l = (l.map parsedOrZero).sum := by
  rw [sumParsed, foldl_parse, zero_add]

lemma foldl_contrib (l : List (Option String)) (a : Int) :
    l.foldl (fun acc d => acc + durContrib d) a = a + (l.map durContrib).sum := by
  induction l generalizing a with
  | nil => simp
  | cons d l ih =>
    rw [List.foldl_cons, ih, List.map_cons, List.sum_cons]
    ring

lemma sumDurationsTotal_eq (l : List (Option String)) :
    sumDurationsTotal l = (l.map durContrib).sum := by
  rw [sumDurationsTotal, foldl_contrib, zero_add]

lemma setTable_mem {db : DB} {name : String} {rows : List LogRow} {t : String × List LogRow}
    (ht : t ∈ (setTable db name rows).tables) : t = (name, rows) ∨ t ∈ db.tables := by
  unfold setTable at ht
  rw [List.mem_map] at ht
  obtain ⟨t0, h0, rfl⟩ := ht
  by_cases h : t0.fst = name
  · rw [if_pos h]
    exact Or.inl rfl
  · rw [if_neg h]
    exact Or.inr h0

lemma tableKeys_setTable (db : DB) (name : String) (rows : List LogRow) :
    tableKeys (setTable db name rows) = tableKeys db := by
  unfold tableKeys setTable
  rw [List.map_map]
  apply List.map_congr_left
  intro t _
  by_cases h : t.fst = name
  · simp [h]
  · simp [h]

lemma lookupTable?_isSome_of_mem {db : DB} {name : String}
    (h : name ∈ tableKeys db) : (lookupTable? db name).isSome := by
  unfold tableKeys at h
  rw [List.mem_map] at h
  obtain ⟨t, ht, rfl⟩ := h
  have hf : (db.tables.find? (fun x => x.fst = t.fst)).isSome := by
    rw [List.find?_isSome]
    exact ⟨t, ht, by simp⟩
  obtain ⟨u, hu⟩ := Option.isSome_iff_exists.mp hf
  unfold lookupTable?
  rw [hu]
  rfl

lemma lookupTable?_eq_none_of_not_mem {db : DB} {name : String}
    (h : name ∉ tableKeys db) : lookupTable? db name = none := by
  unfold lookupTable?
  rw [Option.map_eq_none']
  rw [List.find?_eq_none]
  intro t ht
  simp only [decide_eq_true_eq]
  intro heq
  exact h (by unfold tableKeys; rw [List.mem_map]; exact ⟨t, ht, heq⟩)

lemma lookupTable?_mem {db : DB} {name : String} {rows : List LogRow}
    (h : lookupTable? db name = some rows) : (name, rows) ∈ db.tables := by
  unfold lookupTable? at h
  rw [Option.map_eq_some'] at h
  obtain ⟨t, ht, rfl⟩ := h
  have hmem := List.mem_of_find?_eq_some ht
  have hp := List.find?_some ht
  simp only [decide_eq_true_eq] at hp
  rcases t with ⟨n, rs⟩
  simp only at hp
  rw [hp] at hmem
  exact hmem

lemma createTable_of_mem {db : DB} {name : String} (h : name ∈ tableKeys db) :
    createTableIfNotExists db name = db := by
  have := lookupTable?_isSome_of_mem h
  unfold createTableIfNotExists
  obtain ⟨rows, hrows⟩ := Option.isSome_iff_exists.mp this
  rw [hrows]

lemma countOpen_cons (r : LogRow) (l : List LogRow) :
    countOpen (r :: l) = (if r.end_time.isNone then 1 else 0) + countOpen l := by
  unfold countOpen
  rw [List.filter_cons]
  by_cases h : r.end_time.isNone
  · rw [if_pos h, if_pos h, List.length_cons]
    omega
  · rw [if_neg h, if_neg h]
    omega

lemma countOpen_append (a b : List LogRow) :
    countOpen (a ++ b) = countOpen a + countOpen b := by
  unfold countOpen
  rw [List.filter_append, List.length_append]

lemma countOpen_eq_zero {rows : List LogRow}
    (h : rows.any (fun r => r.end_time.isNone) = false) : countOpen rows = 0 := by
  unfold countOpen
  rw [List.length_eq_zero, List.filter_eq_nil_iff]
  intro r hr
  rw [List.any_eq_false] at h
  exact fun hc => h r hr hc

lemma countOpen_map_close (rows : List LogRow) (tNow : Int) (logId : Nat)
    (ds cs : String) : countOpen (rows.map (closeRow tNow logId ds cs)) ≤ countOpen rows := by
  induction rows with
  | nil => exact Nat.le_refl _
  | cons r l ih =>
    rw [List.map_cons, countOpen_cons, countOpen_cons]
    have : (if (closeRow tNow logId ds cs r).end_time.isNone then 1 else 0)
        ≤ (if r.end_time.isNone then 1 else 0) := by
      unfold closeRow
      by_cases h : r.id = logId
      · rw [if_pos h]
        simp
      · rw [if_neg h]
    omega

lemma find?_append_left_none {α : Type} (p : α → Bool) {l₁ : List α} (l₂ : List α)
    (h : l₁.find? p = none) : (l₁ ++ l₂).find? p = l₂.find? p := by
  rw [List.find?_append, h, Option.none_or]

lemma storeInv_start_recording (st : AppState) (title : String) (t : Int)
    (h : StoreInv st) : StoreInv (start_recording st title t).fst := by
  obtain ⟨h1, h2, h3⟩ := h
  unfold start_recording
  cases hfind : st.db.projects.find? (fun p => p.title = title) with
  | none => exact ⟨h1, h2, h3⟩
  | some p =>
    dsimp only
    cases hlook : lookupTable? st.db p.table_name with
    | none => exact ⟨h1, h2, h3⟩
    | some rows =>
      dsimp only
      by_cases hopen : rows.any (fun r => r.end_time.isNone) = true
      · rw [if_pos hopen]
        exact ⟨h1, h2, h3⟩
      · rw [if_neg hopen]
        rw [Bool.not_eq_true] at hopen
        have hp := List.mem_of_find?_eq_some hfind
        refine ⟨?_, ?_, ?_⟩
        · intro tb htb
          rcases setTable_mem htb with rfl | hold
          · dsimp only
            rw [countOpen_append, countOpen_eq_zero hopen, countOpen_cons]
            simp [countOpen]
          · exact h1 tb hold
        · intro q hq
          rw [tableKeys_setTable]
          exact h2 q hq
        · intro tb htb
          rcases setTable_mem htb with rfl | hold
          · exact ⟨p, hp, rfl⟩
          · exact h3 tb hold

lemma storeInv_stop_project (st : AppState) (t : Int)
    (h : StoreInv st) : StoreInv (stop_project st t).fst := by
  obtain ⟨h1, h2, h3⟩ := h
  unfold stop_project
  cases hcur : st.current with
  | none => exact ⟨h1, h2, h3⟩
  | some c =>
    obtain ⟨pid, tname⟩ := c
    dsimp only
    cases hlook : lookupTable? st.db tname with
    | none => exact ⟨h1, h2, h3⟩
    | some rows =>
      dsimp only
      cases hlast : lastOpenRow rows with
      | none => exact ⟨h1, h2, h3⟩
      | some r =>
        dsimp only
        have hmemrows := lookupTable?_mem hlook
        refine ⟨?_, ?_, ?_⟩
        · intro tb htb
          rcases setTable_mem htb with rfl | hold
          · dsimp only
            exact le_trans (countOpen_map_close rows t r.id _ _) (h1 _ hmemrows)
          · exact h1 tb hold
        · intro q hq
          rw [tableKeys_setTable]
          exact h2 q hq
        · intro tb htb
          rcases setTable_mem htb with rfl | hold
          · obtain ⟨p, hpmem, hpeq⟩ := h3 _ hmemrows
            exact ⟨p, hpmem, hpeq⟩
          · exact h3 tb hold

lemma storeInv_start_project (st : AppState) (ti de : String) (t : Int)
    (h : StoreInv st) : StoreInv (start_project st ti de t).fst := by
  obtain ⟨h1, h2, h3⟩ := h
  unfold start_project
  by_cases he : pyStrip ti = ""
  · rw [if_pos he]
    exact ⟨h1, h2, h3⟩
  · rw [if_neg he]
    by_cases hd : st.db.projects.any (fun p => p.title = pyStrip ti) = true
    · rw [if_pos hd]
      exact ⟨h1, h2, h3⟩
    · rw [if_neg hd]
      by_cases hc : st.db.projects.any
          (fun p => p.table_name = sanitize_table_name (pyStrip ti)) = true
      · rw [if_pos hc]
        rw [List.any_eq_true] at hc
        obtain ⟨p, hpmem, hpeq⟩ := hc
        rw [decide_eq_true_eq] at hpeq
        have hmem : sanitize_table_name (pyStrip ti) ∈ tableKeys st.db := by
          rw [← hpeq]
          exact h2 p hpmem
        rw [createTable_of_mem hmem]
        exact ⟨h1, h2, h3⟩
      · rw [if_neg hc]
        have hnotkey : sanitize_table_name (pyStrip ti) ∉ tableKeys st.db := by
          intro hmem
          unfold tableKeys at hmem
          rw [List.mem_map] at hmem
          obtain ⟨tb, htb, heq⟩ := hmem
          obtain ⟨p, hpmem, hpeq⟩ := h3 tb htb
          apply hc
          rw [List.any_eq_true]
          exact ⟨p, hpmem, by rw [decide_eq_true_eq, hpeq, heq]⟩
        have hlooknone : lookupTable? st.db (sanitize_table_name (pyStrip ti)) = none :=
          lookupTable?_eq_none_of_not_mem hnotkey
        have hcreate : createTableIfNotExists st.db (sanitize_table_name (pyStrip ti))
            = { st.db with tables := st.db.tables
                ++ [(sanitize_table_name (pyStrip ti), [])] } := by
          unfold createTableIfNotExists
          rw [hlooknone]
        rw [hcreate]
        dsimp only
        have hfindnone : st.db.tables.find?
            (fun tb => tb.fst = sanitize_table_name (pyStrip ti)) = none := by
          have := hlooknone
          unfold lookupTable? at this
          rwa [Option.map_eq_none'] at this
        have hlook2 : ∀ pr : List Project, lookupTable?
            { projects := pr, tables := st.db.tables
              ++ [(sanitize_table_name (pyStrip ti), [])] }
            (sanitize_table_name (pyStrip ti)) = some [] := by
          intro pr
          unfold lookupTable?
          dsimp only
          rw [find?_append_left_none _ _ hfindnone]
          simp
        rw [hlook2]
        simp only [Option.getD_some, List.nil_append]
        refine ⟨?_, ?_, ?_⟩
        · intro tb htb
          rcases setTable_mem htb with rfl | hold
          · simp [countOpen]
          · rcases List.mem_append.mp hold with holdl | holdr
            · exact h1 tb holdl
            · rw [List.mem_singleton] at holdr
              rw [holdr]
              simp [countOpen]
        · intro q hq
          rw [tableKeys_setTable]
          unfold tableKeys
          dsimp only
          rw [List.map_append]
          rcases List.mem_append.mp hq with hql | hqr
          · exact List.mem_append_left _ (h2 q hql)
          · rw [List.mem_singleton] at hqr
            rw [hqr]
            apply List.mem_append_right
            simp
        · intro tb htb
          rcases setTable_mem htb with rfl | hold
          · refine ⟨_, List.mem_append_right _ (List.mem_singleton.mpr rfl), rfl⟩
          · rcases List.mem_append.mp hold with holdl | holdr
            · obtain ⟨p, hpmem, hpeq⟩ := h3 tb holdl
              exact ⟨p, List.mem_append_left _ hpmem, hpeq⟩
            · rw [List.mem_singleton] at holdr
              refine ⟨_, List.mem_append_right _ (List.mem_singleton.mpr rfl), ?_⟩
              rw [holdr]

lemma reachable_storeInv : ∀ {st : AppState}, Reachable st → StoreInv st := by
  intro st h
  induction h with
  | init =>
    refine ⟨?_, ?_, ?_⟩ <;> intro x hx <;> cases hx
  | create s ti de t _ ih => exact storeInv_start_project s ti de t ih
  | record s ti t _ ih => exact storeInv_start_recording s ti t ih
  | halt s t _ ih => exact storeInv_stop_project s t ih

/-! Evaluation lemmas for the operations, and the spec-side reading of the
previous-durations sum. -/

lemma stop_project_eq (st : AppState) (pid : Nat) (tname : String) (rows : List LogRow)
    (r : LogRow) (tNow : Int)
    (hcur : st.current = some (pid, tname))
    (hlook : lookupTable? st.db tname = some rows)
    (hlast : lastOpenRow rows = some r) :
    stop_project st tNow
      = ({ db := setTable st.db tname
                   (rows.map (closeRow tNow r.id (timedeltaStr (tNow - r.start_time))
                     (cumulativeStr (sumParsed (prevDurations rows r.id)
                       + (tNow - r.start_time))))),
           current := none }, none) := by
  unfold stop_project
  rw [hcur]
  dsimp only
  rw [hlook]
  dsimp only
  rw [hlast]

lemma start_recording_eq (st : AppState) (title : String) (t : Int) (p : Project)
    (rows : List LogRow)
    (hfind : st.db.projects.find? (fun q => q.title = title) = some p)
    (hlook : lookupTable? st.db p.table_name = some rows)
    (hopen : rows.any (fun r => r.end_time.isNone) = false) :
    start_recording st title t
      = ({ db := setTable st.db p.table_name
                   (rows ++ [{ id := nextRowId rows, start_time := t, end_time := none,
                               duration := none, cumulative_time := none }]),
           current := some (p.id, p.table_name) }, none) := by
  unfold start_recording
  rw [hfind]
  dsimp only
  rw [hlook]
  dsimp only
  rw [if_neg (by rw [hopen]; exact Bool.false_ne_true)]

lemma sumParsed_cons (s : String) (l : List String) :
    sumParsed (s :: l) = parsedOrZero s + sumParsed l := by
  rw [sumParsed_eq, sumParsed_eq, List.map_cons, List.sum_cons]

/-- On rows where end_time and duration are null together (as every row
written by the operations is), the source's duration-is-not-null filter
computes exactly the specification's closed-rows sum. -/
lemma sumParsed_prevDurations_eq_closedPrevSum (rows : List LogRow) (logId : Nat)
    (hiff : ∀ q ∈ rows, (q.end_time = none ↔ q.duration = none)) :
    sumParsed (prevDurations rows logId) = closedPrevSum rows logId := by
  induction rows with
  | nil => rfl
  | cons q l ih =>
    have hq := hiff q (List.mem_cons_self q l)
    have hl := fun x hx => hiff x (List.mem_cons_of_mem q hx)
    unfold prevDurations closedPrevSum
    unfold prevDurations closedPrevSum at ih
    rw [List.filter_cons, List.filter_cons]
    by_cases hid : q.id < logId
    · rw [if_pos (show decide (q.id < logId) = true by simp [hid])]
      cases hdur : q.duration with
      | none =>
        have hend : q.end_time = none := hq.mpr hdur
        rw [if_neg (show ¬((decide (q.id < logId) && q.end_time.isSome) = true) by
          rw [hend]
          simp)]
        rw [List.filterMap_cons, hdur]
        exact ih hl
      | some s =>
        have hend : q.end_time ≠ none := fun h => by
          rw [hq.mp h] at hdur
          cases hdur
        have hsome : q.end_time.isSome = true := Option.isSome_iff_ne_none.mpr hend
        rw [if_pos (show (decide (q.id < logId) && q.end_time.isSome) = true by
          rw [hsome]
          simp [hid])]
        rw [List.filterMap_cons, hdur, sumParsed_cons, ih hl, List.map_cons, List.sum_cons]
        simp only [hdur]
    · rw [if_neg (show ¬(decide (q.id < logId) = true) by simp [hid]),
        if_neg (show ¬((decide (q.id < logId) && q.end_time.isSome) = true) by simp [hid])]
      exact ih hl

lemma find?_eq_some_of_unique {α : Type} (l : List α) (f : α → Bool) (a : α)
    (ha : a ∈ l) (hfa : f a = true) (huniq : ∀ b ∈ l, f b = true → b = a) :
    l.find? f = some a := by
  induction l with
  | nil => cases ha
  | cons x xs ih =>
    by_cases hx : f x = true
    · rw [List.find?_cons_of_pos _ hx, huniq x (List.mem_cons_self x xs) hx]
    · rw [List.find?_cons_of_neg _ hx]
      rcases List.mem_cons.mp ha with rfl | hmem
      · exact absurd hfa hx
      · exact ih hmem (fun b hb hf => huniq b (List.mem_cons_of_mem x hb) hf)

lemma find?_id_of_nodup (l : List Project) (p : Project) (hmem : p ∈ l)
    (hnd : (l.map Project.id).Nodup) : l.find? (fun q => q.id = p.id) = some p := by
  induction l with
  | nil => cases hmem
  | cons q l ih =>
    rw [List.map_cons, List.nodup_cons] at hnd
    rcases List.mem_cons.mp hmem with rfl | hmem'
    · rw [List.find?_cons_of_pos _ (by simp)]
    · by_cases hq : q.id = p.id
      · exfalso
        apply hnd.1
        rw [hq]
        exact List.mem_map.mpr ⟨p, hmem', rfl⟩
      · rw [List.find?_cons_of_neg _ (by simpa using hq)]
        exact ih hmem' hnd.2

lemma sumTotal_skip_malformed (pre post : List (Option String)) (s : String)
    (h : parseDurationSeconds? s = none) :
    sumDurationsTotal (pre ++ some s :: post) = sumDurationsTotal (pre ++ post) := by
  rw [sumDurationsTotal_eq, sumDurationsTotal_eq, List.map_append, List.map_append,
    List.map_cons, List.sum_append, List.sum_append, List.sum_cons]
  have hz : durContrib (some s) = 0 := by
    unfold durContrib
    dsimp only
    by_cases he : s = "" ∨ s = "N/A"
    · rw [if_pos he]
    · rw [if_neg he, h]
  rw [hz, zero_add]

lemma sumParsed_skip_malformed (pre post : List String) (s : String)
    (h : parseDurationSeconds? s = none) :
    sumParsed (pre ++ s :: post) = sumParsed (pre ++ post) := by
  rw [sumParsed_eq, sumParsed_eq, List.map_append, List.map_append, List.map_cons,
    List.sum_append, List.sum_append, List.sum_cons]
  have hz : parsedOrZero s = 0 := by
    unfold parsedOrZero
    rw [h]
    rfl
  rw [hz, zero_add]

/-- C4: in every store state reachable by the operations (create/start/stop)
under single-writer access, each project's log table contains at most one row
with null end_time; every operation preserves this invariant (the proof is by
induction over the operations). -/
theorem C4_at_most_one_open_interval (st : AppState) (h : Reachable st) :
    ∀ tb ∈ st.db.tables, countOpen tb.snd ≤ 1 :=
  (reachable_storeInv h).1

theorem C4_at_most_one_open_interval_witness :
    countOpen [{ id := 1, start_time := 0, end_time := none, duration := none,
                 cumulative_time := none }] ≤ 1 :=
  C4_at_most_one_open_interval _
    (Reachable.create emptyState "Alpha" "" 0 Reachable.init)
    ("project_Alpha", [{ id := 1, start_time := 0, end_time := none, duration := none,
                         cumulative_time := none }]) (by decide)

/-- C5: total-time aggregation over a duration sequence containing a
malformed entry (any string the duration reader rejects, such as the text
N/A) is total (never raises, by construction of the model) and returns the
same total as the sequence with that entry removed. -/
theorem C5_malformed_row_skipped (pre post : List (Option String)) (s : String)
    (h : parseDurationSeconds? s = none) :
    sumDurationsTotal (pre ++ some s :: post) = sumDurationsTotal (pre ++ post) :=
  sumTotal_skip_malformed pre post s h

theorem C5_malformed_row_skipped_witness :
    sumDurationsTotal [some "0:01:00", some "N/A", some "0:02:05"]
      = sumDurationsTotal [some "0:01:00", some "0:02:05"] :=
  C5_malformed_row_skipped [some "0:01:00"] [some "0:02:05"] "N/A" (by decide)

/-- C7: a second start on a project that already has an open interval fails
with AlreadyRunning and returns the state unchanged (no row inserted, no row
modified). -/
theorem C7_second_start_fails (st : AppState) (title : String) (t : Int)
    (p : Project) (rows : List LogRow)
    (hfind : st.db.projects.find? (fun q => q.title = title) = some p)
    (hlook : lookupTable? st.db p.table_name = some rows)
    (hopen : rows.any (fun r => r.end_time.isNone) = true) :
    start_recording st title t = (st, some TrackerError.AlreadyRunning) := by
  unfold start_recording
  rw [hfind]
  dsimp only
  rw [hlook]
  dsimp only
  rw [if_pos hopen]

theorem C7_second_start_fails_witness :
    start_recording exStA "Alpha" 5 = (exStA, some TrackerError.AlreadyRunning) :=
  C7_second_start_fails exStA "Alpha" 5
    { id := 1, title := "Alpha", details := "", table_name := "project_Alpha" }
    [{ id := 1, start_time := 0, end_time := none, duration := none,
       cumulative_time := none }]
    (by decide) (by decide) (by decide)

/-- C10: stopping an interval of 24 hours or more writes the day-form
duration string of Python str(timedelta), which the duration reader rejects,
so both the later cumulative sums and the total-time aggregation count it as
zero: such intervals drop out of all totals silently. -/
theorem C10_day_form_excluded_from_totals (st : AppState) (pid : Nat) (tname : String)
    (rows : List LogRow) (r : LogRow) (tNow : Int)
    (hcur : st.current = some (pid, tname))
    (hlook : lookupTable? st.db tname = some rows)
    (hlast : lastOpenRow rows = some r)
    (hday : 86400 ≤ tNow - r.start_time) :
    stop_project st tNow
      = ({ db := setTable st.db tname
                   (rows.map (closeRow tNow r.id (timedeltaStr (tNow - r.start_time))
                     (cumulativeStr (sumParsed (prevDurations rows r.id)
                       + (tNow - r.start_time))))),
           current := none }, none) ∧
    (∃ days : Nat, 1 ≤ days ∧
      ((timedeltaStr (tNow - r.start_time)).toList
          = natRepr days ++ (" day, ").toList
            ++ hmsChars ((tNow - r.start_time).fmod 86400).toNat ∨
       (timedeltaStr (tNow - r.start_time)).toList
          = natRepr days ++ (" days, ").toList
            ++ hmsChars ((tNow - r.start_time).fmod 86400).toNat)) ∧
    parseDurationSeconds? (timedeltaStr (tNow - r.start_time)) = none ∧
    (∀ pre post : List String,
      sumParsed (pre ++ timedeltaStr (tNow - r.start_time) :: post)
        = sumParsed (pre ++ post)) ∧
    (∀ pre post : List (Option String),
      sumDurationsTotal (pre ++ some (timedeltaStr (tNow - r.start_time)) :: post)
        = sumDurationsTotal (pre ++ post)) := by
  have hparse := parse_timedeltaStr_day _ hday
  refine ⟨stop_project_eq st pid tname rows r tNow hcur hlook hlast, ?_, hparse,
    fun pre post => sumParsed_skip_malformed pre post _ hparse,
    fun pre post => sumTotal_skip_malformed pre post _ hparse⟩
  have h0 : 0 ≤ tNow - r.start_time := le_trans (by norm_num) hday
  obtain ⟨m, hm⟩ : ∃ m : Nat, tNow - r.start_time = (m : Int) :=
    ⟨(tNow - r.start_time).toNat, (Int.toNat_of_nonneg h0).symm⟩
  rw [hm] at hday ⊢
  have hmn : 86400 ≤ m := by exact_mod_cast hday
  have hdiv : ((m : Int)).fdiv 86400 = ((m / 86400 : Nat) : Int) := by
    have := natCast_fdiv m 86400
    simpa using this
  have hmod : ((m : Int)).fmod 86400 = ((m % 86400 : Nat) : Int) := by
    have := natCast_fmod m 86400
    simpa using this
  have hD : 1 ≤ m / 86400 := (Nat.one_le_div_iff (by norm_num)).mpr hmn
  have hDne : ((m / 86400 : Nat) : Int) ≠ 0 := by
    simp only [ne_eq, Nat.cast_eq_zero]
    omega
  have hInt : intRepr ((m / 86400 : Nat) : Int) = natRepr (m / 86400) := by
    rw [intRepr, if_neg (by omega), Int.toNat_natCast]
  refine ⟨m / 86400, hD, ?_⟩
  rw [timedeltaStr]
  simp only [hdiv, hmod, Int.toNat_natCast, if_neg hDne, hInt]
  by_cases h1 : ((m / 86400 : Nat) : Int) = 1 ∨ ((m / 86400 : Nat) : Int) = -1
  · rw [if_pos h1]
    exact Or.inl rfl
  · rw [if_neg h1]
    exact Or.inr rfl

theorem C10_day_form_excluded_witness :
    (stop_project exStDay 90000).snd = none ∧
    parseDurationSeconds? (timedeltaStr ((90000 : Int) - 0)) = none := by
  have h := C10_day_form_excluded_from_totals exStDay 1 "project_A"
    [{ id := 1, start_time := 0, end_time := none, duration := none,
       cumulative_time := none }]
    { id := 1, start_time := 0, end_time := none, duration := none,
      cumulative_time := none }
    90000 rfl (by decide) (by decide) (by decide)
  exact ⟨by rw [h.1], h.2.2.1⟩

lemma find?_map_setRow (l : List (String × List LogRow)) (name : String)
    (rows : List LogRow) (h : (l.find? (fun t => t.fst = name)).isSome) :
    (l.map (fun t => if t.fst = name then (name, rows) else t)).find?
        (fun t => t.fst = name) = some (name, rows) := by
  induction l with
  | nil => simp at h
  | cons a l ih =>
    by_cases ha : a.fst = name
    · rw [List.map_cons, if_pos ha, List.find?_cons_of_pos _ (by simp)]
    · rw [List.map_cons, if_neg ha, List.find?_cons_of_neg _ (by simpa using ha)]
      apply ih
      rw [List.find?_cons_of_neg _ (by simpa using ha)] at h
      exact h

lemma lookupTable?_setTable_self {db : DB} {name : String} {rows0 : List LogRow}
    (rows : List LogRow) (h : lookupTable? db name = some rows0) :
    lookupTable? (setTable db name rows) name = some rows := by
  have hs : (db.tables.find? (fun t => t.fst = name)).isSome := by
    unfold lookupTable? at h
    rw [Option.map_eq_some'] at h
    obtain ⟨t, ht, _⟩ := h
    rw [ht]
    rfl
  unfold lookupTable? setTable
  dsimp only
  rw [find?_map_setRow _ _ _ hs]
  rfl

/-- C3 counterexample: with the running slot occupied by a different project
(project 1), starting tracking on project B does not fail — it returns no
error, inserts an open interval row for B, and overwrites the slot. -/
theorem C3_counterexample :
    exStSlot.current = some (1, "project_A") ∧
    (1 : Nat) ≠ 2 ∧
    (start_recording exStSlot "B" 5).snd = none ∧
    lookupTable? (start_recording exStSlot "B" 5).fst.db "project_B"
      = some [{ id := 1, start_time := 5, end_time := none, duration := none,
                cumulative_time := none }] ∧
    (start_recording exStSlot "B" 5).fst.current = some (2, "project_B") := by decide

/-- C3 amended: start_recording performs no check of the process-wide running
slot; when the selected project itself has no open interval, the start
succeeds even though the slot is occupied by a different project, inserting
an open row and overwriting the slot.  (The only start-time failure tied to
running state is AlreadyRunning, for the selected project's own open
interval.) -/
theorem C3_start_ignores_running_slot (st : AppState) (title : String) (t : Int)
    (p : Project) (rows : List LogRow) (slot : Nat × String)
    (_hcur : st.current = some slot) (_hdiff : slot.fst ≠ p.id)
    (hfind : st.db.projects.find? (fun q => q.title = title) = some p)
    (hlook : lookupTable? st.db p.table_name = some rows)
    (hopen : rows.any (fun r => r.end_time.isNone) = false) :
    (start_recording st title t).snd = none ∧
    lookupTable? (start_recording st title t).fst.db p.table_name
      = some (rows ++ [{ id := nextRowId rows, start_time := t, end_time := none,
                         duration := none, cumulative_time := none }]) ∧
    (start_recording st title t).fst.current = some (p.id, p.table_name) := by
  rw [start_recording_eq st title t p rows hfind hlook hopen]
  exact ⟨rfl, lookupTable?_setTable_self _ hlook, rfl⟩

theorem C3_start_ignores_running_slot_witness :
    (start_recording exStSlot "B" 5).snd = none ∧
    lookupTable? (start_recording exStSlot "B" 5).fst.db "project_B"
      = some [{ id := 1, start_time := 5, end_time := none, duration := none,
                cumulative_time := none }] ∧
    (start_recording exStSlot "B" 5).fst.current = some (2, "project_B") :=
  C3_start_ignores_running_slot exStSlot "B" 5
    { id := 2, title := "B", details := "", table_name := "project_B" }
    [] (1, "project_A") rfl (by decide) (by decide) (by decide) (by decide)

/-- C8 counterexample: startup recovery returns the first open project in
master-table (insertion) order, project b — not the first in the
title-ascending project listing order, which is project a. -/
theorem C8_counterexample :
    check_open_projects dbTwoOpen
        = some { id := 1, title := "b", details := "", table_name := "project_b" } ∧
    (listProjectsByTitle dbTwoOpen).find? (hasOpenRow dbTwoOpen)
        = some { id := 2, title := "a", details := "", table_name := "project_a" } ∧
    ({ id := 1, title := "b", details := "", table_name := "project_b" } : Project)
        ≠ { id := 2, title := "a", details := "", table_name := "project_a" } := by decide

/-- C8 amended: startup recovery scans the registry in master-table
(insertion/id) order, not title-listing order, and returns the first project
whose table has a row with null end_time, or none: with zero open intervals
it returns none; with exactly one project open it returns that project; and
whatever it returns is a registered project with an open row. -/
theorem C8_recover_first_in_master_order (db : DB) :
    ((∀ p ∈ db.projects, hasOpenRow db p = false) → check_open_projects db = none) ∧
    (∀ p ∈ db.projects, hasOpenRow db p = true →
      (∀ q ∈ db.projects, hasOpenRow db q = true → q = p) →
      check_open_projects db = some p) ∧
    (∀ p : Project, check_open_projects db = some p →
      p ∈ db.projects ∧ hasOpenRow db p = true) := by
  refine ⟨?_, ?_, ?_⟩
  · intro hall
    unfold check_open_projects
    rw [List.find?_eq_none]
    intro p hp
    rw [hall p hp]
    exact Bool.false_ne_true
  · intro p hp hopen huniq
    exact find?_eq_some_of_unique _ _ p hp hopen huniq
  · intro p hfind
    exact ⟨List.mem_of_find?_eq_some hfind, List.find?_some hfind⟩

theorem C8_recover_first_in_master_order_witness :
    check_open_projects dbOneOpen
        = some { id := 2, title := "b", details := "", table_name := "project_b" } ∧
    check_open_projects dbNoOpen = none :=
  ⟨(C8_recover_first_in_master_order dbOneOpen).2.1
      { id := 2, title := "b", details := "", table_name := "project_b" }
      (by decide) (by decide) (by decide),
   (C8_recover_first_in_master_order dbNoOpen).1 (by decide)⟩

/-- C9: creating a project whose (stripped) title already exists fails with
DuplicateTitle and leaves the store unchanged; more generally, every failing
outcome of project creation leaves the state exactly as it was (no partial
table creation, no partial interval write), given that each registered
project's table exists (true in every reachable state). -/
theorem C9_duplicate_title_no_partial_effect (st : AppState) (ti de : String) (t : Int)
    (hwf : ∀ p ∈ st.db.projects, p.table_name ∈ tableKeys st.db) :
    (pyStrip ti ≠ "" → (∃ p ∈ st.db.projects, p.title = pyStrip ti) →
      start_project st ti de t = (st, some TrackerError.DuplicateTitle)) ∧
    (∀ e : TrackerError, (start_project st ti de t).snd = some e →
      (start_project st ti de t).fst = st) := by
  constructor
  · rintro hne ⟨p, hp, hpt⟩
    unfold start_project
    rw [if_neg hne, if_pos (List.any_eq_true.mpr ⟨p, hp, by simp [hpt]⟩)]
  · intro e
    unfold start_project
    by_cases he : pyStrip ti = ""
    · rw [if_pos he]
      intro _
      rfl
    · rw [if_neg he]
      by_cases hd : st.db.projects.any (fun p => p.title = pyStrip ti) = true
      · rw [if_pos hd]
        intro _
        rfl
      · rw [if_neg hd]
        by_cases hcol : st.db.projects.any
            (fun p => p.table_name = sanitize_table_name (pyStrip ti)) = true
        · rw [if_pos hcol]
          rw [List.any_eq_true] at hcol
          obtain ⟨p, hp, hpe⟩ := hcol
          rw [decide_eq_true_eq] at hpe
          have hmem : sanitize_table_name (pyStrip ti) ∈ tableKeys st.db := by
            rw [← hpe]
            exact hwf p hp
          rw [createTable_of_mem hmem]
          intro _
          rfl
        · rw [if_neg hcol]
          dsimp only
          intro hco
          exact Option.noConfusion hco

theorem C9_duplicate_title_no_partial_effect_witness :
    start_project exStA "Alpha" "x" 9 = (exStA, some TrackerError.DuplicateTitle) :=
  (C9_duplicate_title_no_partial_effect exStA "Alpha" "x" 9 (by decide)).1
    (by decide)
    ⟨{ id := 1, title := "Alpha", details := "", table_name := "project_Alpha" },
      by decide, rfl⟩

lemma betaStep1 (t1 : Int) : start_project emptyState "Alpha" "" t1 = (stB1 t1, none) :=
  rfl

lemma betaStep2 (t1 t2 : Int) : stop_project (stB1 t1) t2 = (stB2 t1 t2, none) := by
  rw [stop_project_eq (stB1 t1) 1 "project_Alpha"
    [{ id := 1, start_time := t1, end_time := none, duration := none,
       cumulative_time := none }]
    { id := 1, start_time := t1, end_time := none, duration := none,
      cumulative_time := none }
    t2 rfl rfl rfl]
  rw [show sumParsed (prevDurations
      [{ id := 1, start_time := t1, end_time := none, duration := none,
         cumulative_time := none }] 1) + (t2 - t1) = t2 - t1 from zero_add _]
  rfl

lemma betaStep3 (t1 t2 t3 : Int) :
    start_recording (stB2 t1 t2) "Alpha" t3 = (stB3 t1 t2 t3, none) :=
  rfl

lemma betaStep4 (t1 t2 t3 t4 : Int) (h2a : 0 ≤ t2 - t1) (h2b : t2 - t1 < 86400) :
    stop_project (stB3 t1 t2 t3) t4 = (stB4 t1 t2 t3 t4, none) := by
  rw [stop_project_eq (stB3 t1 t2 t3) 1 "project_Alpha"
    [{ id := 1, start_time := t1, end_time := some t2,
       duration := some (timedeltaStr (t2 - t1)),
       cumulative_time := some (cumulativeStr (t2 - t1)) },
     { id := 2, start_time := t3, end_time := none, duration := none,
       cumulative_time := none }]
    { id := 2, start_time := t3, end_time := none, duration := none,
      cumulative_time := none }
    t4 rfl rfl rfl]
  have hsum : sumParsed (prevDurations
      [{ id := 1, start_time := t1, end_time := some t2,
         duration := some (timedeltaStr (t2 - t1)),
         cumulative_time := some (cumulativeStr (t2 - t1)) },
       { id := 2, start_time := t3, end_time := none, duration := none,
         cumulative_time := none }] 2) = t2 - t1 := by
    show sumParsed [timedeltaStr (t2 - t1)] = t2 - t1
    rw [sumParsed_cons]
    unfold parsedOrZero
    rw [parse_timedeltaStr _ h2a h2b]
    show (t2 - t1) + sumParsed [] = t2 - t1
    rw [show sumParsed [] = 0 from rfl, add_zero]
  rw [hsum]
  rfl

lemma betaStep5 (t1 t2 t3 t4 t5 : Int) :
    start_recording (stB4 t1 t2 t3 t4) "Alpha" t5 = (stB5 t1 t2 t3 t4 t5, none) :=
  rfl

lemma betaStep6 (t1 t2 t3 t4 t5 t6 : Int)
    (h2a : 0 ≤ t2 - t1) (h2b : t2 - t1 < 86400)
    (h4a : 0 ≤ t4 - t3) (h4b : t4 - t3 < 86400) :
    stop_project (stB5 t1 t2 t3 t4 t5) t6 = (stB6 t1 t2 t3 t4 t5 t6, none) := by
  rw [stop_project_eq (stB5 t1 t2 t3 t4 t5) 1 "project_Alpha"
    [{ id := 1, start_time := t1, end_time := some t2,
       duration := some (timedeltaStr (t2 - t1)),
       cumulative_time := some (cumulativeStr (t2 - t1)) },
     { id := 2, start_time := t3, end_time := some t4,
       duration := some (timedeltaStr (t4 - t3)),
       cumulative_time := some (cumulativeStr ((t2 - t1) + (t4 - t3))) },
     { id := 3, start_time := t5, end_time := none, duration := none,
       cumulative_time := none }]
    { id := 3, start_time := t5, end_time := none, duration := none,
      cumulative_time := none }
    t6 rfl rfl rfl]
  have hsum : sumParsed (prevDurations
      [{ id := 1, start_time := t1, end_time := some t2,
         duration := some (timedeltaStr (t2 - t1)),
         cumulative_time := some (cumulativeStr (t2 - t1)) },
       { id := 2, start_time := t3, end_time := some t4,
         duration := some (timedeltaStr (t4 - t3)),
         cumulative_time := some (cumulativeStr ((t2 - t1) + (t4 - t3))) },
       { id := 3, start_time := t5, end_time := none, duration := none,
         cumulative_time := none }] 3) = (t2 - t1) + (t4 - t3) := by
    show sumParsed [timedeltaStr (t2 - t1), timedeltaStr (t4 - t3)]
        = (t2 - t1) + (t4 - t3)
    rw [sumParsed_cons, sumParsed_cons]
    unfold parsedOrZero
    rw [parse_timedeltaStr _ h2a h2b, parse_timedeltaStr _ h4a h4b]
    show (t2 - t1) + ((t4 - t3) + sumParsed []) = (t2 - t1) + (t4 - t3)
    rw [show sumParsed [] = 0 from rfl, add_zero]
  rw [hsum]
  rfl

/-- C2 counterexample: stopping 125 seconds after start writes the duration
string 0:02:05 (Python str(timedelta), hours a single unpadded digit), not
the claimed 00:02:05. -/
theorem C2_counterexample :
    (alphaRows (alphaCycle2 0 200)).map (fun r => r.duration)
        = [some "0:02:05", some "0:01:00"] ∧
    ("0:02:05" : String) ≠ "00:02:05" := by decide

/-- C2 amended: the stored duration strings use Python timedelta rendering
(zero-padded minutes and seconds but unpadded hours, wrapping to a day form
at 24 h), while the cumulative strings use the zero-padded HH:MM:SS f-string
whose hour field is not wrapped at 24: the scenario writes duration 0:02:05
and cumulative 00:02:05, then duration 0:01:00 and cumulative 00:03:05, and
a 25-hour cumulative renders as 25:00:00. -/
theorem C2_duration_unpadded_cumulative_padded (t0 t1 : Int) :
    (alphaRows (alphaCycle2 t0 t1)).map (fun r => r.duration)
        = [some "0:02:05", some "0:01:00"] ∧
    (alphaRows (alphaCycle2 t0 t1)).map (fun r => r.cumulative_time)
        = [some "00:02:05", some "00:03:05"] ∧
    cumulativeStr 90000 = "25:00:00" := by
  have ha : t0 + 125 - t0 = (125 : Int) := by ring
  have hb : t1 + 60 - t1 = (60 : Int) := by ring
  have hstate : alphaCycle2 t0 t1 = stB4 t0 (t0 + 125) t1 (t1 + 60) := by
    unfold alphaCycle2
    simp only [betaStep1, betaStep2, betaStep3,
      betaStep4 t0 (t0 + 125) t1 (t1 + 60) (by omega) (by omega)]
  rw [hstate]
  refine ⟨?_, ?_, rfl⟩
  · show [some (timedeltaStr (t0 + 125 - t0)), some (timedeltaStr (t1 + 60 - t1))]
        = [some "0:02:05", some "0:01:00"]
    rw [ha, hb]
    rfl
  · show [some (cumulativeStr (t0 + 125 - t0)),
          some (cumulativeStr (t0 + 125 - t0 + (t1 + 60 - t1)))]
        = [some "00:02:05", some "00:03:05"]
    rw [ha, hb]
    rfl

/-- C1 counterexample: with cycle durations 90000 s (25 h), 60 s and 60 s the
three written cumulative values are 25:00:00, 00:01:00 and 00:02:00 — the
first cycle's day-form duration string drops out of the later sums — so they
are neither strictly increasing nor the rendered running sums of the three
durations. -/
theorem C1_counterexample :
    (alphaRows (alphaCycle3 0 90000 90001 90061 90062 90122)).map
        (fun r => r.cumulative_time)
      = [some "25:00:00", some "00:01:00", some "00:02:00"] ∧
    [some "25:00:00", some "00:01:00", some "00:02:00"]
      ≠ [some (cumulativeStr (90000 - 0)),
         some (cumulativeStr (90000 - 0 + (90061 - 90001))),
         some (cumulativeStr (90000 - 0 + (90061 - 90001) + (90122 - 90062)))] := by
  decide

/-- C1 amended: on every stop, the written cumulative_time is the rendering
of the sum of the parsed durations of the closed rows of smaller id (each
malformed duration contributing zero) plus this interval's own duration, on
any table whose rows have end_time and duration null together; consequently
three consecutive start/stop cycles whose durations are each positive and
below 24 hours (so that each written duration string parses back) yield
strictly increasing cumulative values equal to the running sums of the three
durations in order. -/
theorem C1_cumulative_is_running_sum :
    (∀ (st : AppState) (pid : Nat) (tname : String) (rows : List LogRow) (r : LogRow)
        (tNow : Int),
      st.current = some (pid, tname) →
      lookupTable? st.db tname = some rows →
      lastOpenRow rows = some r →
      (∀ q ∈ rows, (q.end_time = none ↔ q.duration = none)) →
      stop_project st tNow
        = ({ db := setTable st.db tname
                     (rows.map (closeRow tNow r.id (timedeltaStr (tNow - r.start_time))
                       (cumulativeStr (closedPrevSum rows r.id
                         + (tNow - r.start_time))))),
             current := none }, none)) ∧
    (∀ t1 t2 t3 t4 t5 t6 : Int,
      0 < t2 - t1 → t2 - t1 < 86400 → 0 < t4 - t3 → t4 - t3 < 86400 →
      0 < t6 - t5 → t6 - t5 < 86400 →
      (alphaRows (alphaCycle3 t1 t2 t3 t4 t5 t6)).map (fun r => r.cumulative_time)
          = [some (cumulativeStr (t2 - t1)),
             some (cumulativeStr (t2 - t1 + (t4 - t3))),
             some (cumulativeStr (t2 - t1 + (t4 - t3) + (t6 - t5)))] ∧
      t2 - t1 < t2 - t1 + (t4 - t3) ∧
      t2 - t1 + (t4 - t3) < t2 - t1 + (t4 - t3) + (t6 - t5)) := by
  constructor
  · intro st pid tname rows r tNow hcur hlook hlast hiff
    rw [stop_project_eq st pid tname rows r tNow hcur hlook hlast,
      sumParsed_prevDurations_eq_closedPrevSum rows r.id hiff]
  · intro t1 t2 t3 t4 t5 t6 h2 h2b h4 h4b h6 h6b
    have hstate : alphaCycle3 t1 t2 t3 t4 t5 t6 = stB6 t1 t2 t3 t4 t5 t6 := by
      unfold alphaCycle3
      simp only [betaStep1, betaStep2, betaStep3,
        betaStep4 t1 t2 t3 t4 (le_of_lt h2) h2b, betaStep5,
        betaStep6 t1 t2 t3 t4 t5 t6 (le_of_lt h2) h2b (le_of_lt h4) h4b]
    rw [hstate]
    exact ⟨rfl, by omega, by omega⟩

theorem C1_cumulative_is_running_sum_witness :
    (alphaRows (alphaCycle3 0 125 200 260 300 360)).map (fun r => r.cumulative_time)
        = [some (cumulativeStr (125 - 0)),
           some (cumulativeStr (125 - 0 + (260 - 200))),
           some (cumulativeStr (125 - 0 + (260 - 200) + (360 - 300)))] ∧
    (125 : Int) - 0 < 125 - 0 + (260 - 200) ∧
    (125 : Int) - 0 + (260 - 200) < 125 - 0 + (260 - 200) + (360 - 300) :=
  C1_cumulative_is_running_sum.2 0 125 200 260 300 360
    (by norm_num) (by norm_num) (by norm_num) (by norm_num) (by norm_num) (by norm_num)

/-- C6: the global total (no project filter) equals the sum over all
registered projects of the per-project totals, for every store whose
registered table names are the sanitized titles (as creation guarantees) and
whose project ids are distinct (as the primary key guarantees). -/
theorem C6_global_total_is_sum_over_projects (db : DB)
    (hnames : ∀ p ∈ db.projects, p.table_name = sanitize_table_name p.title)
    (hids : (db.projects.map Project.id).Nodup) :
    update_total_time db none
      = (db.projects.map (fun p => update_total_time db (some p.id))).sum := by
  unfold update_total_time
  dsimp only
  rw [sumDurationsTotal_eq]
  have hflat : ∀ (L : List (List (Option String))),
      (L.flatten.map durContrib).sum
        = (L.map (fun l => (l.map durContrib).sum)).sum := by
    intro L
    induction L with
    | nil => rfl
    | cons a L ih =>
      rw [List.flatten_cons, List.map_append, List.sum_append, List.map_cons,
        List.sum_cons, ih]
  rw [hflat, List.map_map]
  congr 1
  apply List.map_congr_left
  intro p hp
  have hgt : get_project_title db p.id = p.title := by
    unfold get_project_title
    rw [find?_id_of_nodup db.projects p hp hids]
    rfl
  dsimp only [Function.comp]
  rw [hgt, ← hnames p hp, sumDurationsTotal_eq]

theorem C6_global_total_is_sum_over_projects_witness :
    update_total_time dbTwoTotals none
      = (dbTwoTotals.projects.map
          (fun p => update_total_time dbTwoTotals (some p.id))).sum :=
  C6_global_total_is_sum_over_projects dbTwoTotals (by decide) (by decide)
